import Mathlib

/-!
Verification of the halftone-compositor core
(`src/components/MetalHalftoneCompositor.tsx`).

The per-pixel numeric pipeline (tone adjustment, halftone screening), the
mask-geometry engine (hit-testing, resize anchors), the mask collection
operations (add, move, resize, delete, selection update) and the two
compositing paths (live preview and export) are shallowly embedded below.

Modelling conventions:
- JavaScript numbers are modelled as rationals; 8-bit channel samples are
  naturals.  `Math.round`, `Math.floor`, the JS remainder operator `%` and
  the two clamping helpers from the source get explicit definitions.
- Transcendental library calls (`Math.pow(2,e)`, `Math.sin`, `Math.cos`)
  are abstracted as function parameters of the embedding; every theorem
  quantifies over them, so it holds for whatever values the real functions
  return.  The source precomputes these outside its pixel loops, exactly as
  the parameters are applied here.
- CSS hex color strings are represented by the `RGB` triple that the
  source helper `hexToRgb` parses them into.
- Canvas 2D compositing in `renderComposite`/`exportImage` is modelled
  per-point on idealized continuous images (point sampling instead of
  resampling filters, exact shape membership instead of antialiased
  coverage); the sequence and semantics of the draw operations
  (source-over, destination-out, destination-over, clip) follow the source.
-/

/-- Math.round: rounds half away from 0 upward, i.e. floor(q + 1/2). -/
def jsRound (q : ℚ) : ℤ := ⌊q + 1/2⌋

/-- Truncation toward zero, as used by the JS remainder operator. -/
def jsTrunc (q : ℚ) : ℤ := if 0 ≤ q then ⌊q⌋ else -⌊-q⌋

/-- The JS remainder operator `%`: a - b * trunc(a / b) (sign of dividend). -/
def jsMod (a b : ℚ) : ℚ := a - b * jsTrunc (a / b)

/-- Source `clamp01` (line 147): clamp a number to the unit interval. -/
def clamp01 (v : ℚ) : ℚ := if v < 0 then 0 else if v > 1 then 1 else v

/-- Source `clamp255` (line 148): `Math.max(0, Math.min(255, Math.round(v * 255)))`,
    producing an 8-bit sample. -/
def clamp255 (v : ℚ) : ℕ := (max 0 (min 255 (jsRound (v * 255)))).toNat

/-- An RGB triple as produced by the source helper `hexToRgb` (lines 225-231). -/
structure RGB where
  r : ℕ
  g : ℕ
  b : ℕ
deriving DecidableEq

/-- One RGBA pixel of an ImageData buffer: four 8-bit samples. -/
structure Pixel where
  r : ℕ
  g : ℕ
  b : ℕ
  a : ℕ
deriving DecidableEq

/-- An ImageData pixel buffer: dimensions plus a pixel at each coordinate.
    The flat `data` array of the source, indexed by `(y * width + x) * 4`,
    is modelled as a function of the coordinates. -/
structure PixelBuffer where
  width : ℕ
  height : ℕ
  data : ℕ → ℕ → Pixel

/-- The `ImageAdjustments` record (lines 12-24), with both color strings
    already parsed to `RGB`. -/
structure ImageAdjustments where
  greyscale : Bool
  exposure : ℚ
  contrast : ℚ
  highlights : ℚ
  shadows : ℚ
  overlayColor : RGB
  overlayOpacity : ℚ
  noiseEnabled : Bool
  noiseSize : ℚ
  noiseColor : RGB
  noiseOpacity : ℚ

/-- `DEFAULT_ADJUSTMENTS` (lines 50-62); overlay `#0d6847` = (13,104,71),
    noise `#ffffff` = (255,255,255). -/
def DEFAULT_ADJUSTMENTS : ImageAdjustments :=
  { greyscale := false, exposure := 0, contrast := 0, highlights := 0,
    shadows := 0, overlayColor := ⟨13, 104, 71⟩, overlayOpacity := 0,
    noiseEnabled := false, noiseSize := 2, noiseColor := ⟨255, 255, 255⟩,
    noiseOpacity := 0.1 }

/-- The `overlayBlend` closure (lines 83-84). -/
def overlayBlend (base blend : ℚ) : ℚ :=
  if base < 0.5 then 2 * base * blend else 1 - 2 * (1 - base) * (1 - blend)

/-- Body of the per-pixel loop of `applyImageAdjustments` (lines 86-137).
    `pow2` models `Math.pow 2 ·` and `sinH` models `Math.sin` (used only by
    the noise hash); the source hoists the derived constants
    (`overlayRgb`, `noiseRgb`, `grain`, `expFactor`, `contrastFactor`,
    lines 75-81) out of the loop, which is semantically identical to
    computing them per pixel as done here. -/
def adjustPixel (pow2 sinH : ℚ → ℚ) (adj : ImageAdjustments) (x y : ℕ)
    (p : Pixel) : Pixel :=
  if p.a < 10 then p
  else
    let oC := if adj.overlayOpacity > 0 then adj.overlayColor else ⟨0, 0, 0⟩
    let oR := (oC.r : ℚ) / 255
    let oG := (oC.g : ℚ) / 255
    let oB := (oC.b : ℚ) / 255
    let nC := if adj.noiseEnabled then adj.noiseColor else ⟨0, 0, 0⟩
    let nR := (nC.r : ℚ) / 255
    let nG := (nC.g : ℚ) / 255
    let nB := (nC.b : ℚ) / 255
    let grain : ℤ := max 1 (jsRound adj.noiseSize)
    let expFactor := pow2 adj.exposure
    let contrastFactor := 1 + adj.contrast
    let r0 := (p.r : ℚ) / 255
    let g0 := (p.g : ℚ) / 255
    let b0 := (p.b : ℚ) / 255
    let lumG := 0.299 * r0 + 0.587 * g0 + 0.114 * b0
    let r1 := if adj.greyscale then lumG else r0
    let g1 := if adj.greyscale then lumG else g0
    let b1 := if adj.greyscale then lumG else b0
    let r2 := r1 * expFactor
    let g2 := g1 * expFactor
    let b2 := b1 * expFactor
    let r3 := (r2 - 0.5) * contrastFactor + 0.5
    let g3 := (g2 - 0.5) * contrastFactor + 0.5
    let b3 := (b2 - 0.5) * contrastFactor + 0.5
    let lum := 0.299 * clamp01 r3 + 0.587 * clamp01 g3 + 0.114 * clamp01 b3
    let hW := max 0 ((lum - 0.5) * 2)
    let sW := max 0 ((0.5 - lum) * 2)
    let hsMod := adj.highlights * hW * 0.5 + adj.shadows * sW * 0.5
    let r4 := r3 + hsMod
    let g4 := g3 + hsMod
    let b4 := b3 + hsMod
    let oa := adj.overlayOpacity
    let r5 := if adj.overlayOpacity > 0 then
        clamp01 r4 * (1 - oa) + overlayBlend (clamp01 r4) oR * oa else r4
    let g5 := if adj.overlayOpacity > 0 then
        clamp01 g4 * (1 - oa) + overlayBlend (clamp01 g4) oG * oa else g4
    let b5 := if adj.overlayOpacity > 0 then
        clamp01 b4 * (1 - oa) + overlayBlend (clamp01 b4) oB * oa else b4
    let gx : ℤ := ⌊(x : ℚ) / (grain : ℚ)⌋
    let gy : ℤ := ⌊(y : ℚ) / (grain : ℚ)⌋
    let nv := jsMod (jsMod (sinH ((gx : ℚ) * 12.9898 + (gy : ℚ) * 78.233)
        * 43758.5453) 1 + 1) 1
    let no := adj.noiseOpacity * nv
    let r6 := if adj.noiseEnabled ∧ adj.noiseOpacity > 0 then
        r5 * (1 - no) + nR * no else r5
    let g6 := if adj.noiseEnabled ∧ adj.noiseOpacity > 0 then
        g5 * (1 - no) + nG * no else g5
    let b6 := if adj.noiseEnabled ∧ adj.noiseOpacity > 0 then
        b5 * (1 - no) + nB * no else b5
    { r := clamp255 r6, g := clamp255 g6, b := clamp255 b6, a := p.a }

/-- `applyImageAdjustments` (lines 65-145): runs the adjustment loop over
    every in-range pixel; the alpha sample is never assigned. -/
def applyImageAdjustments (pow2 sinH : ℚ → ℚ) (adj : ImageAdjustments)
    (buf : PixelBuffer) : PixelBuffer :=
  { width := buf.width, height := buf.height,
    data := fun x y =>
      if x < buf.width ∧ y < buf.height then
        adjustPixel pow2 sinH adj x y (buf.data x y)
      else buf.data x y }

/-- The `HalftoneOptions` record as consumed by `applyLinearHalftone`
    (line 153), with the line color already parsed to `RGB`. -/
structure HalftoneOptions where
  frequency : ℚ
  angle : ℚ
  thickness : ℚ
  lineColor : RGB

/-- Body of the per-pixel loop of `applyLinearHalftone` (lines 181-202).
    `c`, `s` are the precomputed cosine/sine of the adjusted angle and
    `lineSpacing` the precomputed spacing (lines 176-179).  A pixel whose
    source alpha is below 10, or which falls outside the ink band, keeps
    the initialization value (0,0,0,0) of the freshly created output
    buffer (lines 169-172). -/
def halftonePixel (thickness : ℚ) (lineColor : RGB) (c s lineSpacing : ℚ)
    (x y : ℕ) (p : Pixel) : Pixel :=
  if p.a < 10 then ⟨0, 0, 0, 0⟩
  else
    let brightness := (0.299 * (p.r : ℚ) + 0.587 * (p.g : ℚ)
        + 0.114 * (p.b : ℚ)) / 255
    let rx := (x : ℚ) * c + (y : ℚ) * s
    let posInPeriod := jsMod (jsMod rx lineSpacing + lineSpacing) lineSpacing
    let normalizedPos := posInPeriod / lineSpacing
    let lineWidth := (1 - brightness) * thickness
    let distFromCenter := |normalizedPos - 0.5| * 2
    if distFromCenter < lineWidth then
      ⟨lineColor.r, lineColor.g, lineColor.b, p.a⟩
    else ⟨0, 0, 0, 0⟩

/-- `applyLinearHalftone` (lines 151-207).  `cosDeg`/`sinDeg` model
    `Math.cos`/`Math.sin` of `degrees * π / 180` (line 176-178).  The
    output buffer starts fully transparent black and out-of-range pixels
    keep that value. -/
def applyLinearHalftone (cosDeg sinDeg : ℚ → ℚ) (opts : HalftoneOptions)
    (src : PixelBuffer) : PixelBuffer :=
  let adjustedAngle := if jsMod opts.angle 90 = 0 then opts.angle + 0.01
    else opts.angle
  let c := cosDeg adjustedAngle
  let s := sinDeg adjustedAngle
  let lineSpacing := max 2 (72 / opts.frequency)
  { width := src.width, height := src.height,
    data := fun x y =>
      if x < src.width ∧ y < src.height then
        halftonePixel opts.thickness opts.lineColor c s lineSpacing x y
          (src.data x y)
      else ⟨0, 0, 0, 0⟩ }

/-- Mask shapes (line 27). -/
inductive Shape where
  | rectangle
  | circle
  | triangle
deriving DecidableEq

/-- The `Mask` record (lines 26-33): center coordinates and extents in
    image-space units, plus the `Date.now()` creation id. -/
structure Mask where
  shape : Shape
  x : ℚ
  y : ℚ
  width : ℚ
  height : ℚ
  id : ℤ
deriving DecidableEq

/-- `isPointInMask` (lines 613-626): hit-test of a display-space point
    against a mask drawn at display scale `cs`. -/
def isPointInMask (px py : ℚ) (mask : Mask) (cs : ℚ) : Bool :=
  let cx := mask.x * cs
  let cy := mask.y * cs
  let w := mask.width * cs
  let h := mask.height * cs
  match mask.shape with
  | Shape.rectangle =>
      decide (px ≥ cx - w / 2) && decide (px ≤ cx + w / 2) &&
      decide (py ≥ cy - h / 2) && decide (py ≤ cy + h / 2)
  | Shape.circle =>
      let rx := w / 2
      let ry := h / 2
      decide ((px - cx) ^ 2 / rx ^ 2 + (py - cy) ^ 2 / ry ^ 2 ≤ 1)
  | Shape.triangle =>
      let x1 := cx
      let y1 := cy - h / 2
      let x2 := cx + w / 2
      let y2 := cy + h / 2
      let x3 := cx - w / 2
      let y3 := cy + h / 2
      let d := (y2 - y3) * (x1 - x3) + (x3 - x2) * (y1 - y3)
      let a := ((y2 - y3) * (px - x3) + (x3 - x2) * (py - y3)) / d
      let b := ((y3 - y1) * (px - x3) + (x1 - x3) * (py - y3)) / d
      decide (a ≥ 0) && decide (b ≥ 0) && decide (1 - a - b ≥ 0)

/-- The four resize-handle identities (line 47). -/
inductive HandlePos where
  | tl
  | tr
  | bl
  | br
deriving DecidableEq

/-- Image-space corner of a mask bounding box for a handle identity;
    `getHandlePositions` (lines 408-417) is these coordinates multiplied
    by the display scale. -/
def maskCorner (mask : Mask) (pos : HandlePos) : ℚ × ℚ :=
  match pos with
  | HandlePos.tl => (mask.x - mask.width / 2, mask.y - mask.height / 2)
  | HandlePos.tr => (mask.x + mask.width / 2, mask.y - mask.height / 2)
  | HandlePos.bl => (mask.x - mask.width / 2, mask.y + mask.height / 2)
  | HandlePos.br => (mask.x + mask.width / 2, mask.y + mask.height / 2)

/-- The diagonally opposite handle identity. -/
def oppositeHandle : HandlePos → HandlePos
  | HandlePos.tl => HandlePos.br
  | HandlePos.tr => HandlePos.bl
  | HandlePos.bl => HandlePos.tr
  | HandlePos.br => HandlePos.tl

/-- Anchor recorded when a resize drag starts on a handle
    (`handleMouseDown`, lines 566-571). -/
def anchorFor (mask : Mask) (pos : HandlePos) : ℚ × ℚ :=
  let hw := mask.width / 2
  let hh := mask.height / 2
  match pos with
  | HandlePos.tl => (mask.x + hw, mask.y + hh)
  | HandlePos.tr => (mask.x - hw, mask.y + hh)
  | HandlePos.bl => (mask.x + hw, mask.y - hh)
  | HandlePos.br => (mask.x - hw, mask.y - hh)

/-- The resize branch of `handleMouseMove` (lines 599-605): recompute the
    mask from the recorded anchor `(ax, ay)` and the current image-space
    pointer position `(mx, my)`. -/
def resizeUpdate (mask : Mask) (ax ay mx my : ℚ) : Mask :=
  { mask with
    x := (ax + mx) / 2, y := (ay + my) / 2,
    width := max 20 |mx - ax|, height := max 20 |my - ay| }

/-- The move branch of `handleMouseMove` (line 598): recenter the mask at
    the pointer minus the grab offset. -/
def moveUpdate (mask : Mask) (mx my offX offY : ℚ) : Mask :=
  { mask with x := mx - offX, y := my - offY }

/-- The `DragState` record (lines 35-42), as its two used variants. -/
inductive DragState where
  | move (index : ℕ) (offsetX offsetY : ℚ)
  | resize (index : ℕ) (anchorX anchorY : ℚ)

/-- The mask-list update of `handleMouseMove` (lines 595-608) at
    image-space pointer position `(mx, my)`; the dragged index is always
    in range in the source (it was set by `handleMouseDown`), so an
    out-of-range index leaves the list unchanged. -/
def handleMouseMoveMasks (ds : DragState) (mx my : ℚ)
    (prev : List Mask) : List Mask :=
  match ds with
  | DragState.move i ox oy =>
      match prev.get? i with
      | some m => prev.set i (moveUpdate m mx my ox oy)
      | none => prev
  | DragState.resize i ax ay =>
      match prev.get? i with
      | some m => prev.set i (resizeUpdate m ax ay mx my)
      | none => prev

/-- `addMask` (lines 628-638): append a new mask centered on the canvas
    with extents 35% of the canvas, and select it (`newMasks.length - 1`).
    `now` stands for `Date.now()`. -/
def addMask (shape : Shape) (csW csH : ℚ) (now : ℤ)
    (prev : List Mask) : List Mask × Option ℕ :=
  let newMasks := prev ++
    [{ shape := shape, x := csW / 2, y := csH / 2, width := csW * 0.35,
       height := csH * 0.35, id := now }]
  (newMasks, some (newMasks.length - 1))

/-- The list part of `deleteMask` (line 641):
    `prev.filter((_, i) => i !== index)`. -/
def deleteMaskList (prev : List Mask) (index : ℕ) : List Mask :=
  (prev.enum.filter (fun pr => pr.1 != index)).map Prod.snd

/-- `deleteMask` (lines 640-644): remove the mask at `index` and update
    the selection (clear if it was the deleted one, shift down if it was
    after it, keep otherwise). -/
def deleteMask (prev : List Mask) (sel : Option ℕ)
    (index : ℕ) : List Mask × Option ℕ :=
  (deleteMaskList prev index,
   match sel with
   | none => none
   | some j => if j = index then none
       else if j > index then some (j - 1) else some j)

/-- The minimum-size invariant claimed for every mask in the collection. -/
def masksOk (ms : List Mask) : Prop :=
  ∀ m ∈ ms, 20 ≤ m.width ∧ 20 ≤ m.height

instance (ms : List Mask) : Decidable (masksOk ms) := by
  unfold masksOk
  infer_instance

/-- An RGBA color with rational channels in [0,1] (straight alpha), the
    value of one point of an idealized continuous canvas. -/
structure Color where
  r : ℚ
  g : ℚ
  b : ℚ
  a : ℚ
deriving DecidableEq

/-- A continuous idealized image: a color at every image-space point. -/
def Img : Type := ℚ → ℚ → Color

/-- Canvas source-over compositing of `src` on top of `dst` with straight
    alpha (destination-over paints `dst` behind `src`, i.e. `over src dst`
    with the arguments read as top and bottom layer). -/
def over (src dst : Color) : Color :=
  let a := src.a + dst.a * (1 - src.a)
  if a = 0 then ⟨0, 0, 0, 0⟩
  else
    ⟨(src.r * src.a + dst.r * dst.a * (1 - src.a)) / a,
     (src.g * src.a + dst.g * dst.a * (1 - src.a)) / a,
     (src.b * src.a + dst.b * dst.a * (1 - src.a)) / a,
     a⟩

/-- The transparent-background checkerboard of `renderComposite`
    (lines 495-505): 8-unit tiles, `#141414` = 20 grey when the tile
    coordinate parity is even, `#0a0a0a` = 10 grey otherwise. -/
def checker (px py : ℚ) : Color :=
  if (⌊px / 8⌋ + ⌊py / 8⌋) % 2 = 0 then
    ⟨20 / 255, 20 / 255, 20 / 255, 1⟩
  else
    ⟨10 / 255, 10 / 255, 10 / 255, 1⟩

/-- A solid background fill color (alpha 1) from a parsed hex color. -/
def solidColor (c : RGB) : Color :=
  ⟨(c.r : ℚ) / 255, (c.g : ℚ) / 255, (c.b : ℚ) / 255, 1⟩

/-- The `maskContent` toggle (line 298): which buffer shows inside masks. -/
inductive MaskContent where
  | halftone
  | metal

/-- The state consumed by both compositing paths: the mask collection,
    the composition-mode flag, the background policy, and the two
    committed buffers (as idealized continuous images). -/
structure CompositorState where
  masks : List Mask
  maskContent : MaskContent
  bgColor : RGB
  transparentBg : Bool
  imageCanvas : Img
  halftoneCanvas : Img

/-- One point of the live-preview composite produced by `renderComposite`
    (lines 420-538) at output scale `s`, for the no-mask-selected state
    (the selection outline block, lines 515-534, draws nothing when
    `selectedMask` is null).  Layer draws scaled to the output sample the
    layer at `p / s`; the mask stencil (filled via `drawMaskShape`) covers
    exactly the region `isPointInMask` tests; `destination-out` multiplies
    the base alpha by one minus the stencil coverage; `destination-over`
    inside the clip paints the masked layer behind the current content;
    finally the background (checkerboard if `transparentBg`, else the
    solid color) is painted behind everything. -/
def renderCompositePixel (st : CompositorState) (s px py : ℚ) : Color :=
  let base := match st.maskContent with
    | MaskContent.halftone => st.imageCanvas
    | MaskContent.metal => st.halftoneCanvas
  let masked := match st.maskContent with
    | MaskContent.halftone => st.halftoneCanvas
    | MaskContent.metal => st.imageCanvas
  let fg :=
    if 0 < st.masks.length then
      let inStencil := st.masks.any (fun m => isPointInMask px py m s)
      let baseC := base (px / s) (py / s)
      let afterOut : Color :=
        ⟨baseC.r, baseC.g, baseC.b,
         baseC.a * (1 - (if inStencil then 1 else 0))⟩
      if inStencil then over afterOut (masked (px / s) (py / s))
      else afterOut
    else base (px / s) (py / s)
  if st.transparentBg then over fg (checker px py)
  else over fg (solidColor st.bgColor)

/-- One point of the exported composite produced by `exportImage`
    (lines 647-701) at output scale `s` (the chosen export multiplier).
    Identical drawing sequence as the preview, except that the background
    fill is applied only when `transparentBg` is off — a transparent
    export stays transparent (lines 689-695). -/
def exportImagePixel (st : CompositorState) (s px py : ℚ) : Color :=
  let base := match st.maskContent with
    | MaskContent.halftone => st.imageCanvas
    | MaskContent.metal => st.halftoneCanvas
  let masked := match st.maskContent with
    | MaskContent.halftone => st.halftoneCanvas
    | MaskContent.metal => st.imageCanvas
  let fg :=
    if 0 < st.masks.length then
      let inStencil := st.masks.any (fun m => isPointInMask px py m s)
      let baseC := base (px / s) (py / s)
      let afterOut : Color :=
        ⟨baseC.r, baseC.g, baseC.b,
         baseC.a * (1 - (if inStencil then 1 else 0))⟩
      if inStencil then over afterOut (masked (px / s) (py / s))
      else afterOut
    else base (px / s) (py / s)
  if st.transparentBg then fg
  else over fg (solidColor st.bgColor)

/-! ## Concrete fixtures used by witnesses and counterexamples -/

/-- A halftone parameter set: frequency 20 lpi, 45 degrees, thickness 0.8,
    line color (9,17,33). -/
def exHalftoneOpts : HalftoneOptions :=
  { frequency := 20, angle := 45, thickness := 0.8, lineColor := ⟨9, 17, 33⟩ }

/-- Degree-cosine stand-in used when evaluating on concrete inputs. -/
def exCos : ℚ → ℚ := fun _ => 0

/-- Degree-sine stand-in used when evaluating on concrete inputs. -/
def exSin : ℚ → ℚ := fun _ => 1

/-- A 1x1 buffer holding one opaque black pixel (alpha 200). -/
def exBufOpaque : PixelBuffer :=
  { width := 1, height := 1, data := fun _ _ => ⟨0, 0, 0, 200⟩ }

/-- A 1x1 buffer holding one almost-transparent colored pixel (alpha 5,
    below the 10/255 threshold). -/
def exBufLowAlpha : PixelBuffer :=
  { width := 1, height := 1, data := fun _ _ => ⟨1, 2, 3, 5⟩ }

/-- A 40x40 rectangle mask centered at (100,100). -/
def exMaskRect : Mask :=
  { shape := Shape.rectangle, x := 100, y := 100, width := 40, height := 40,
    id := 0 }

/-- A 40x40 circle mask centered at (100,90). -/
def exMaskCircle : Mask :=
  { shape := Shape.circle, x := 100, y := 90, width := 40, height := 40,
    id := 3 }

/-- A 30x40 triangle mask centered at (50,60). -/
def exMaskTriangle : Mask :=
  { shape := Shape.triangle, x := 50, y := 60, width := 30, height := 40,
    id := 7 }

/-- A compositor state with no masks, transparent-background policy, and
    fully transparent committed buffers. -/
def exState : CompositorState :=
  { masks := [], maskContent := MaskContent.halftone,
    bgColor := ⟨13, 104, 71⟩, transparentBg := true,
    imageCanvas := fun _ _ => ⟨0, 0, 0, 0⟩,
    halftoneCanvas := fun _ _ => ⟨0, 0, 0, 0⟩ }

/-- The same state with the solid-background policy selected. -/
def exStateSolid : CompositorState :=
  { exState with transparentBg := false }

/-! ## Helper lemmas -/

/-- `clamp255` is a left inverse of dividing an 8-bit sample by 255. -/
theorem clamp255_of_eq_div255 (n : ℕ) (q : ℚ) (hq : q = (n : ℚ) / 255)
    (hn : n ≤ 255) : clamp255 q = n := by
  subst hq
  unfold clamp255 jsRound
  have h255 : (255 : ℚ) ≠ 0 := by norm_num
  rw [div_mul_cancel₀ _ h255]
  have hfl : ⌊(n : ℚ) + 1 / 2⌋ = (n : ℤ) := by
    rw [Int.floor_eq_iff]
    constructor
    · push_cast
      linarith
    · push_cast
      linarith
  rw [hfl]
  omega

/-- The second component of an element of `enumFrom` is in the list. -/
theorem snd_mem_of_mem_enumFrom {α : Type} {p : ℕ × α} {l : List α}
    {n : ℕ} (h : p ∈ l.enumFrom n) : p.2 ∈ l := by
  induction l generalizing n with
  | nil => simp [List.enumFrom] at h
  | cons a t ih =>
    rcases List.mem_cons.mp h with h1 | h1
    · subst h1
      exact List.mem_cons_self a t
    · exact List.mem_cons_of_mem a (ih h1)

/-- Everything surviving `deleteMaskList` was in the original list. -/
theorem mem_of_mem_deleteMaskList {m : Mask} {ms : List Mask} {k : ℕ}
    (h : m ∈ deleteMaskList ms k) : m ∈ ms := by
  unfold deleteMaskList at h
  rcases List.mem_map.mp h with ⟨p, hp, hpm⟩
  subst hpm
  exact snd_mem_of_mem_enumFrom (List.mem_of_mem_filter hp)

/-- Every halftone output pixel is transparent black or the line color
    carrying the source alpha. -/
theorem halftonePixel_cases (th : ℚ) (lc : RGB) (c s ls : ℚ) (x y : ℕ)
    (p : Pixel) :
    halftonePixel th lc c s ls x y p = ⟨0, 0, 0, 0⟩ ∨
    halftonePixel th lc c s ls x y p = ⟨lc.r, lc.g, lc.b, p.a⟩ := by
  unfold halftonePixel
  split
  · exact Or.inl rfl
  · simp only []
    split
    · exact Or.inr rfl
    · exact Or.inl rfl

/-- Buffer-level version of `halftonePixel_cases`. -/
theorem applyLinearHalftone_cases (cosDeg sinDeg : ℚ → ℚ)
    (opts : HalftoneOptions) (src : PixelBuffer) (x y : ℕ) :
    (applyLinearHalftone cosDeg sinDeg opts src).data x y = ⟨0, 0, 0, 0⟩ ∨
    (applyLinearHalftone cosDeg sinDeg opts src).data x y
      = ⟨opts.lineColor.r, opts.lineColor.g, opts.lineColor.b,
         (src.data x y).a⟩ := by
  unfold applyLinearHalftone
  dsimp only
  split
  · exact halftonePixel_cases _ _ _ _ _ _ _ _
  · exact Or.inl rfl

/-- C9: `applyImageAdjustments` never modifies the alpha channel: the
    output alpha sample at every pixel equals the input alpha sample. -/
theorem applyImageAdjustments_preserves_alpha (pow2 sinH : ℚ → ℚ)
    (adj : ImageAdjustments) (buf : PixelBuffer) (x y : ℕ) :
    ((applyImageAdjustments pow2 sinH adj buf).data x y).a
      = (buf.data x y).a := by
  unfold applyImageAdjustments
  dsimp only
  split
  · unfold adjustPixel
    split
    · rfl
    · rfl
  · rfl

/-- C6: every pixel of `applyLinearHalftone` output has alpha 0 or exactly
    the source alpha, and a pixel with nonzero alpha carries the
    configured line color in its RGB samples. -/
theorem applyLinearHalftone_alpha_dichotomy (cosDeg sinDeg : ℚ → ℚ)
    (opts : HalftoneOptions) (src : PixelBuffer) (x y : ℕ) :
    (((applyLinearHalftone cosDeg sinDeg opts src).data x y).a = 0 ∨
      ((applyLinearHalftone cosDeg sinDeg opts src).data x y).a
        = (src.data x y).a) ∧
    (((applyLinearHalftone cosDeg sinDeg opts src).data x y).a ≠ 0 →
      ((applyLinearHalftone cosDeg sinDeg opts src).data x y).r
          = opts.lineColor.r ∧
      ((applyLinearHalftone cosDeg sinDeg opts src).data x y).g
          = opts.lineColor.g ∧
      ((applyLinearHalftone cosDeg sinDeg opts src).data x y).b
          = opts.lineColor.b) := by
  rcases applyLinearHalftone_cases cosDeg sinDeg opts src x y with h | h
  · rw [h]
    exact ⟨Or.inl rfl, fun hne => absurd rfl hne⟩
  · rw [h]
    exact ⟨Or.inr rfl, fun _ => ⟨rfl, rfl, rfl⟩⟩

/-- C6 witness: the alpha dichotomy and line-color law evaluated on a
    concrete one-pixel opaque buffer. -/
theorem applyLinearHalftone_alpha_dichotomy_witness :
    (((applyLinearHalftone exCos exSin exHalftoneOpts exBufOpaque).data
        0 0).a = 0 ∨
      ((applyLinearHalftone exCos exSin exHalftoneOpts exBufOpaque).data
        0 0).a = 200) ∧
    (((applyLinearHalftone exCos exSin exHalftoneOpts exBufOpaque).data
        0 0).a ≠ 0 →
      ((applyLinearHalftone exCos exSin exHalftoneOpts exBufOpaque).data
        0 0).r = 9 ∧
      ((applyLinearHalftone exCos exSin exHalftoneOpts exBufOpaque).data
        0 0).g = 17 ∧
      ((applyLinearHalftone exCos exSin exHalftoneOpts exBufOpaque).data
        0 0).b = 33) :=
  applyLinearHalftone_alpha_dichotomy exCos exSin exHalftoneOpts
    exBufOpaque 0 0

/-- C1 counterexample: on a pixel with alpha 5 (below the 10 threshold)
    and nonzero RGB, `applyLinearHalftone` does not leave the pixel
    identical to its input — the output is transparent black. -/
theorem applyLinearHalftone_not_passthrough_lowAlpha :
    (applyLinearHalftone exCos exSin exHalftoneOpts exBufLowAlpha).data 0 0
      ≠ exBufLowAlpha.data 0 0 := by
  decide

/-- C1 (amended): a pixel whose alpha sample is below 10 is passed through
    completely unmodified by `applyImageAdjustments` (all four channels),
    while `applyLinearHalftone` leaves such a pixel at the output buffer's
    initialization value, fully transparent black (0,0,0,0). -/
theorem lowAlpha_passthrough (pow2 sinH cosDeg sinDeg : ℚ → ℚ)
    (adj : ImageAdjustments) (opts : HalftoneOptions) (buf : PixelBuffer)
    (x y : ℕ) (ha : (buf.data x y).a < 10) :
    (applyImageAdjustments pow2 sinH adj buf).data x y = buf.data x y ∧
    (applyLinearHalftone cosDeg sinDeg opts buf).data x y
      = ⟨0, 0, 0, 0⟩ := by
  constructor
  · unfold applyImageAdjustments
    dsimp only
    split
    · unfold adjustPixel
      rw [if_pos ha]
    · rfl
  · unfold applyLinearHalftone
    dsimp only
    split
    · unfold halftonePixel
      rw [if_pos ha]
    · rfl

/-- C1 witness: the amended passthrough law evaluated on the concrete
    alpha-5 buffer. -/
theorem lowAlpha_passthrough_witness :
    (applyImageAdjustments (fun _ => 1) (fun _ => 0) DEFAULT_ADJUSTMENTS
        exBufLowAlpha).data 0 0 = exBufLowAlpha.data 0 0 ∧
    (applyLinearHalftone exCos exSin exHalftoneOpts exBufLowAlpha).data 0 0
      = ⟨0, 0, 0, 0⟩ :=
  lowAlpha_passthrough (fun _ => 1) (fun _ => 0) exCos exSin
    DEFAULT_ADJUSTMENTS exHalftoneOpts exBufLowAlpha 0 0 (by decide)

/-- C7: deleting the mask at index `k` clears the selection when the
    selection equals `k`, decrements it when it lies above `k`, and leaves
    it unchanged when it lies below `k`. -/
theorem deleteMask_selection (ms : List Mask) (j k : ℕ) :
    (deleteMask ms (some k) k).2 = none ∧
    (j > k → (deleteMask ms (some j) k).2 = some (j - 1)) ∧
    (j < k → (deleteMask ms (some j) k).2 = some j) := by
  refine ⟨?_, ?_, ?_⟩
  · simp [deleteMask]
  · intro h
    have h1 : j ≠ k := by omega
    simp [deleteMask, h1, h]
  · intro h
    have h1 : j ≠ k := by omega
    have h2 : ¬ j > k := by omega
    simp [deleteMask, h1, h2]

/-- C7 witness: the three selection-update cases evaluated at concrete
    indices (selection 1 deleting 1, selection 2 deleting 1, selection 0
    deleting 1). -/
theorem deleteMask_selection_witness :
    (deleteMask [] (some 1) 1).2 = none ∧
    (deleteMask [] (some 2) 1).2 = some 1 ∧
    (deleteMask [] (some 0) 1).2 = some 0 :=
  ⟨(deleteMask_selection [] 1 1).1,
   (deleteMask_selection [] 2 1).2.1 (by omega),
   (deleteMask_selection [] 0 1).2.2 (by omega)⟩

/-- C10: `addMask` appends the new mask at the end of the collection,
    centered at the canvas center with extents 35% of the canvas, the new
    list is one longer, the appended element sits at index
    `prev.length`, and the selection becomes that index. -/
theorem addMask_appends_and_selects (shape : Shape) (csW csH : ℚ)
    (now : ℤ) (prev : List Mask) :
    (addMask shape csW csH now prev).1 =
      prev ++ [{ shape := shape, x := csW / 2, y := csH / 2,
                 width := csW * 0.35, height := csH * 0.35, id := now }] ∧
    (addMask shape csW csH now prev).1.length = prev.length + 1 ∧
    (addMask shape csW csH now prev).1[prev.length]? =
      some { shape := shape, x := csW / 2, y := csH / 2,
             width := csW * 0.35, height := csH * 0.35, id := now } ∧
    (addMask shape csW csH now prev).2 = some prev.length := by
  refine ⟨rfl, by simp [addMask], ?_, by simp [addMask]⟩
  unfold addMask
  dsimp only
  exact List.getElem?_concat_length prev _

/-- C5: with neutral parameters (greyscale off, exposure 0 so the
    exposure factor is 2^0 = 1, contrast 0, highlights 0, shadows 0,
    overlay opacity 0, noise disabled), `applyImageAdjustments` maps every
    pixel with alpha at least 10 to itself, exactly. -/
theorem applyImageAdjustments_neutral_identity (pow2 sinH : ℚ → ℚ)
    (adj : ImageAdjustments) (buf : PixelBuffer) (x y : ℕ)
    (hgrey : adj.greyscale = false) (hexp : adj.exposure = 0)
    (hpow : pow2 0 = 1) (hcon : adj.contrast = 0)
    (hhi : adj.highlights = 0) (hsh : adj.shadows = 0)
    (hov : adj.overlayOpacity = 0) (hnoise : adj.noiseEnabled = false)
    (ha : 10 ≤ (buf.data x y).a) (hr : (buf.data x y).r ≤ 255)
    (hg : (buf.data x y).g ≤ 255) (hb : (buf.data x y).b ≤ 255) :
    (applyImageAdjustments pow2 sinH adj buf).data x y = buf.data x y := by
  unfold applyImageAdjustments
  dsimp only
  split
  · generalize hgen : buf.data x y = p at ha hr hg hb ⊢
    obtain ⟨pr, pg, pb, pa⟩ := p
    unfold adjustPixel
    have hna : ¬ (Pixel.mk pr pg pb pa).a < 10 := by
      simpa using ha
    rw [if_neg hna]
    simp only [hgrey, hexp, hcon, hhi, hsh, hov, hnoise, hpow]
    simp
    refine ⟨?_, ?_, ?_⟩
    · exact clamp255_of_eq_div255 pr _ (by ring) hr
    · exact clamp255_of_eq_div255 pg _ (by ring) hg
    · exact clamp255_of_eq_div255 pb _ (by ring) hb
  · rfl

/-- C5 witness: the neutral identity evaluated with `DEFAULT_ADJUSTMENTS`
    on the concrete opaque one-pixel buffer. -/
theorem applyImageAdjustments_neutral_identity_witness :
    (applyImageAdjustments (fun _ => 1) (fun _ => 0) DEFAULT_ADJUSTMENTS
        exBufOpaque).data 0 0 = exBufOpaque.data 0 0 :=
  applyImageAdjustments_neutral_identity (fun _ => 1) (fun _ => 0)
    DEFAULT_ADJUSTMENTS exBufOpaque 0 0 rfl rfl rfl rfl rfl rfl rfl rfl
    (by decide) (by decide) (by decide) (by decide)

/-- If two fractions over a positive denominator sum to at most the
    denominator, one minus their sum is nonnegative. -/
theorem sub_div_bound (d na nb : ℚ) (hd : 0 < d) (hsum : na + nb ≤ d) :
    0 ≤ 1 - na / d - nb / d := by
  have h1 : na / d + nb / d ≤ 1 := by
    rw [div_add_div_same, div_le_one hd]
    exact hsum
  linarith

/-- C8: for every mask of any of the three shape types with extents at
    least 20 and every positive display scale, `isPointInMask` accepts the
    point at the exact center of the mask's bounding box. -/
theorem isPointInMask_center (m : Mask) (cs : ℚ) (hw : 20 ≤ m.width)
    (hh : 20 ≤ m.height) (hcs : 0 < cs) :
    isPointInMask (m.x * cs) (m.y * cs) m cs = true := by
  obtain ⟨sh, X, Y, W0, H0, idv⟩ := m
  dsimp only at hw hh ⊢
  have hW : 0 < W0 * cs := mul_pos (by linarith) hcs
  have hH : 0 < H0 * cs := mul_pos (by linarith) hcs
  unfold isPointInMask
  cases sh
  case rectangle =>
    simp only [ge_iff_le, Bool.and_eq_true, decide_eq_true_eq]
    refine ⟨⟨⟨?_, ?_⟩, ?_⟩, ?_⟩ <;> nlinarith [hW, hH]
  case circle =>
    simp only [decide_eq_true_eq, sub_self]
    norm_num
  case triangle =>
    simp only [ge_iff_le, Bool.and_eq_true, decide_eq_true_eq]
    refine ⟨⟨?_, ?_⟩, ?_⟩
    · apply div_nonneg
      · nlinarith [mul_pos hW hH]
      · nlinarith [mul_pos hW hH]
    · apply div_nonneg
      · nlinarith [mul_pos hW hH]
      · nlinarith [mul_pos hW hH]
    · apply sub_div_bound
      · nlinarith [mul_pos hW hH]
      · nlinarith [mul_pos hW hH]

/-- C8 witness: the center hit evaluated on a concrete triangle mask at
    scale 1. -/
theorem isPointInMask_center_witness :
    isPointInMask (50 * 1) (60 * 1)
      { shape := Shape.triangle, x := 50, y := 60, width := 30,
        height := 40, id := 7 } 1 = true :=
  isPointInMask_center
    { shape := Shape.triangle, x := 50, y := 60, width := 30,
      height := 40, id := 7 } 1 (by norm_num) (by norm_num) (by norm_num)

/-- C3 counterexample: for the 40x40 mask centered at (100,100), dragging
    the top-left handle records anchor (120,120) (the bottom-right
    corner); moving the pointer to (115,115) triggers the minimum-size
    clamp, and afterwards no corner of the bounding box sits at the
    recorded anchor — the opposite corner did not stay fixed. -/
theorem resizeUpdate_clamp_moves_anchor :
    anchorFor exMaskRect HandlePos.tl = (120, 120) ∧
    maskCorner (resizeUpdate exMaskRect 120 120 115 115) HandlePos.tl
      ≠ (120, 120) ∧
    maskCorner (resizeUpdate exMaskRect 120 120 115 115) HandlePos.tr
      ≠ (120, 120) ∧
    maskCorner (resizeUpdate exMaskRect 120 120 115 115) HandlePos.bl
      ≠ (120, 120) ∧
    maskCorner (resizeUpdate exMaskRect 120 120 115 115) HandlePos.br
      ≠ (120, 120) := by
  have habs : |(115 : ℚ) - 120| = 5 := by
    rw [show (115 : ℚ) - 120 = -5 by norm_num, abs_neg, abs_of_nonneg]
    norm_num
  have hmax : max (20 : ℚ) 5 = 20 := max_eq_left (by norm_num)
  refine ⟨by norm_num [anchorFor, exMaskRect, Prod.ext_iff], ?_, ?_, ?_, ?_⟩ <;>
    simp [maskCorner, resizeUpdate, exMaskRect, habs, hmax, Prod.ext_iff] <;>
    norm_num

/-- C3 (amended): the anchor recorded on a resize press is the pre-drag
    corner diagonally opposite the dragged handle, and whenever the
    pointer stays at least 20 units away from the anchor on both axes (so
    the minimum-size clamp does not fire), the recomputed mask keeps the
    anchor exactly at one bounding-box corner while the pointer position
    is the diagonally opposite corner (its reflection through the new
    center). -/
theorem resizeUpdate_preserves_anchor (m : Mask) (pos : HandlePos)
    (ax ay mx my : ℚ) (hax : ax = (anchorFor m pos).1)
    (hay : ay = (anchorFor m pos).2) (hx : 20 ≤ |mx - ax|)
    (hy : 20 ≤ |my - ay|) :
    (ax, ay) = maskCorner m (oppositeHandle pos) ∧
    |ax - (resizeUpdate m ax ay mx my).x|
      = (resizeUpdate m ax ay mx my).width / 2 ∧
    |ay - (resizeUpdate m ax ay mx my).y|
      = (resizeUpdate m ax ay mx my).height / 2 ∧
    mx = 2 * (resizeUpdate m ax ay mx my).x - ax ∧
    my = 2 * (resizeUpdate m ax ay mx my).y - ay := by
  refine ⟨?_, ?_, ?_, ?_, ?_⟩
  · subst hax hay
    cases pos <;> rfl
  · unfold resizeUpdate
    dsimp only
    rw [max_eq_right hx]
    rw [show ax - (ax + mx) / 2 = -((mx - ax) / 2) by ring, abs_neg,
      abs_div]
    norm_num
  · unfold resizeUpdate
    dsimp only
    rw [max_eq_right hy]
    rw [show ay - (ay + my) / 2 = -((my - ay) / 2) by ring, abs_neg,
      abs_div]
    norm_num
  · unfold resizeUpdate
    dsimp only
    ring
  · unfold resizeUpdate
    dsimp only
    ring

/-- C3 witness: the amended anchor law evaluated on a concrete
    bottom-right resize drag of the circle mask (anchor (80,70), pointer
    (130,120)). -/
theorem resizeUpdate_preserves_anchor_witness :
    ((80 : ℚ), (70 : ℚ)) = maskCorner exMaskCircle
      (oppositeHandle HandlePos.br) ∧
    |(80 : ℚ) - (resizeUpdate exMaskCircle 80 70 130 120).x|
      = (resizeUpdate exMaskCircle 80 70 130 120).width / 2 ∧
    |(70 : ℚ) - (resizeUpdate exMaskCircle 80 70 130 120).y|
      = (resizeUpdate exMaskCircle 80 70 130 120).height / 2 ∧
    (130 : ℚ) = 2 * (resizeUpdate exMaskCircle 80 70 130 120).x - 80 ∧
    (120 : ℚ) = 2 * (resizeUpdate exMaskCircle 80 70 130 120).y - 70 :=
  resizeUpdate_preserves_anchor exMaskCircle HandlePos.br 80 70 130 120
    (by norm_num [anchorFor, exMaskCircle]) (by norm_num [anchorFor, exMaskCircle])
    (by norm_num) (by norm_num)

/-- C4 counterexample: on a 40x40 canvas (a legal loaded image size),
    `addMask` creates a mask of width and height 40 * 0.35 = 14 < 20, so
    the minimum-size invariant is not preserved by every mask-creating
    operation for every loaded image size. -/
theorem addMask_small_canvas_breaks_min_size :
    ¬ masksOk (addMask Shape.rectangle 40 40 0 []).1 := by
  intro h
  have hmem := h
    { shape := Shape.rectangle, x := 40 / 2, y := 40 / 2,
      width := 40 * 0.35, height := 40 * 0.35, id := 0 }
    (by simp [addMask])
  rcases hmem with ⟨h1, h2⟩
  norm_num at h1

/-- C4 (amended): the width/height >= 20 invariant is preserved by the
    move drag, the resize drag (which clamps to 20) and deletion
    unconditionally, and by `addMask` provided the canvas is large enough
    that 35% of each dimension is at least 20 (canvas dimensions of at
    least 400/7, about 58 units). -/
theorem maskMinSize_invariant (ms : List Mask) (hms : masksOk ms)
    (shape : Shape) (csW csH : ℚ) (now : ℤ) (hW : 20 ≤ csW * 0.35)
    (hH : 20 ≤ csH * 0.35) (ds : DragState) (mx my : ℚ) (k : ℕ) :
    masksOk (addMask shape csW csH now ms).1 ∧
    masksOk (handleMouseMoveMasks ds mx my ms) ∧
    masksOk (deleteMaskList ms k) := by
  refine ⟨?_, ?_, ?_⟩
  · intro m hm
    unfold addMask at hm
    dsimp only at hm
    rcases List.mem_append.mp hm with h | h
    · exact hms m h
    · rcases List.mem_singleton.mp h with rfl
      exact ⟨hW, hH⟩
  · intro m hm
    rcases ds with ⟨i, ox, oy⟩ | ⟨i, ax, ay⟩
    · unfold handleMouseMoveMasks at hm
      dsimp only at hm
      split at hm
      · rename_i mi hget
        rcases List.mem_or_eq_of_mem_set hm with h | h
        · exact hms m h
        · subst h
          exact hms mi (List.get?_mem hget)
      · exact hms m hm
    · unfold handleMouseMoveMasks at hm
      dsimp only at hm
      split at hm
      · rename_i mi hget
        rcases List.mem_or_eq_of_mem_set hm with h | h
        · exact hms m h
        · subst h
          exact ⟨le_max_left 20 _, le_max_left 20 _⟩
      · exact hms m hm
  · intro m hm
    exact hms m (mem_of_mem_deleteMaskList hm)

/-- C4 witness: the amended invariant evaluated from a concrete state
    (one legal mask, an 800x800 canvas, a concrete resize drag and a
    concrete deletion). -/
theorem maskMinSize_invariant_witness :
    masksOk (addMask Shape.circle 800 800 9 [exMaskRect]).1 ∧
    masksOk (handleMouseMoveMasks (DragState.resize 0 120 120) 10 10
      [exMaskRect]) ∧
    masksOk (deleteMaskList [exMaskRect] 0) :=
  maskMinSize_invariant [exMaskRect] (by decide) Shape.circle 800 800 9
    (by norm_num) (by norm_num) (DragState.resize 0 120 120) 10 10 0

/-- C2 counterexample: with the transparent background policy, the live
    preview and the export differ even at the same scale on the same
    state: where everything is transparent, `renderComposite` paints an
    opaque checkerboard tile while `exportImage` leaves the point fully
    transparent. -/
theorem renderComposite_ne_export_transparent :
    renderCompositePixel exState 1 0 0 ≠ exportImagePixel exState 1 0 0 := by
  intro h
  have ha := congrArg Color.a h
  simp only [renderCompositePixel, exportImagePixel, exState, over,
    checker] at ha
  norm_num at ha

/-- C2 (amended): with the solid background policy (`transparentBg`
    false) and no mask selected, the live-preview compositing function
    and the export compositing function compute the same color at every
    point for every state and every common output scale; with the
    transparent policy they differ (preview paints the checkerboard,
    export keeps zero alpha). -/
theorem renderComposite_eq_export_solid (st : CompositorState)
    (s px py : ℚ) (h : st.transparentBg = false) :
    renderCompositePixel st s px py = exportImagePixel st s px py := by
  simp only [renderCompositePixel, exportImagePixel, h,
    Bool.false_eq_true, if_false]

/-- C2 witness: the preview/export agreement evaluated on the concrete
    solid-background state. -/
theorem renderComposite_eq_export_solid_witness :
    renderCompositePixel exStateSolid 1 0 0
      = exportImagePixel exStateSolid 1 0 0 :=
  renderComposite_eq_export_solid exStateSolid 1 0 0 rfl
